import Mathlib

/-!
Verification of the source-aware HTML content extraction logic of
ainewsdemo/demo3/web_crawler.py (class NewsCrawler).

The embedding models:
- the HTML parse tree as a first-child / next-sibling tree N;
- BeautifulSoup operations used by the crawler: select_one with the
  concrete CSS selectors appearing in the script, find with tag/attr
  filters, element decompose (in-place removal of tagged descendants),
  and get_text(separator, strip=True);
- urlparse(url).netloc as used by identify_source;
- the network fetch and the HTML parser as oracles (a NetOutcome value
  and a parse function), since those are external I/O.

Python strings are modelled as Lean String; len is String.length.
-/

set_option maxRecDepth 40000

/-! ## String helpers (Python str operations, modelled at the character-list level) -/

/-- Whitespace characters stripped by Python str.strip() (ASCII subset). -/
def isWsChar (c : Char) : Bool :=
  c = ' ' || c = '\t' || c = '\n' || c = '\r' || c = '\x0b' || c = '\x0c'

/-- Python str.strip(): remove leading and trailing whitespace. -/
def pyStrip (s : String) : String :=
  String.mk (((s.data.dropWhile isWsChar).reverse.dropWhile isWsChar).reverse)

/-- ASCII lowercase of one character, as Python str.lower() does for ASCII. -/
def lowerChar (c : Char) : Char :=
  if 65 ≤ c.toNat && c.toNat ≤ 90 then Char.ofNat (c.toNat + 32) else c

/-- Python str.lower() (ASCII). -/
def pyLower (s : String) : String := String.mk (s.data.map lowerChar)

/-- Python sep.join(parts). -/
def joinSep (sep : String) : List String → String
  | [] => ""
  | [s] => s
  | s :: rest => s ++ sep ++ joinSep sep rest

/-- Decimal digit character. -/
def digChar (n : Nat) : Char := Char.ofNat (48 + n)

/-- Decimal digits of n, most significant first; fuel-structured so it reduces in the kernel. -/
def natDigits : Nat → Nat → List Char
  | 0, _ => []
  | fuel + 1, n => if n < 10 then [digChar n] else natDigits fuel (n / 10) ++ [digChar (n % 10)]

/-- Decimal rendering of a natural number, as Python str(n). -/
def natToStr (n : Nat) : String := String.mk (natDigits (n + 1) n)

/-- Does a list start with the given list? -/
def leadMatch : List Char → List Char → Bool
  | [], _ => true
  | _ :: _, [] => false
  | a :: as, b :: bs => a = b && leadMatch as bs

/-- Does the second list contain the first as a contiguous sublist? -/
def subAt : List Char → List Char → Bool
  | needle, [] => needle.isEmpty
  | needle, c :: rest => leadMatch needle (c :: rest) || subAt needle rest

/-- Python substring membership: sub in hay. -/
def strHas (hay sub : String) : Bool := subAt sub.data hay.data

/-- Split on whitespace runs, dropping empty pieces (Python str.split()). -/
def splitWsAux : List Char → List Char → List String
  | [], acc => if acc.isEmpty then [] else [String.mk acc.reverse]
  | c :: rest, acc =>
    if isWsChar c then
      if acc.isEmpty then splitWsAux rest []
      else String.mk acc.reverse :: splitWsAux rest []
    else splitWsAux rest (c :: acc)

/-- Python str.split() with no argument. -/
def splitWs (s : String) : List String := splitWsAux s.data []

/-! ## The parsed-markup tree (ParsedDocument)

A document is a forest in first-child / next-sibling form: N.nil ends a
sibling chain, N.text is a text node, N.elem a tag with attributes, its
child forest and its following siblings. The soup handed to the
extractors is such a forest (the children of the BeautifulSoup root). -/

inductive N where
  | nil
  | text (s : String) (sib : N)
  | elem (tag : String) (attrs : List (String × String)) (child : N) (sib : N)
deriving Repr, DecidableEq

/-- All descendant text-node strings, in document order (BeautifulSoup .strings). -/
def textsF : N → List String
  | .nil => []
  | .text s sib => s :: textsF sib
  | .elem _ _ child sib => textsF child ++ textsF sib

/-- BeautifulSoup get_text(separator=sep, strip=True): strip each string,
drop the ones that become empty, join with the separator. -/
def getText (sep : String) (l : N) : String :=
  joinSep sep (((textsF l).map pyStrip).filter (fun s => !(s = "")))

/-- Remove every element whose tag is in bad, together with its subtree
(the effect of decompose on each element found by find_all(bad)). -/
def stripF (bad : List String) : N → N
  | .nil => .nil
  | .text s sib => .text s (stripF bad sib)
  | .elem t a child sib =>
    if bad.contains t then stripF bad sib
    else .elem t a (stripF bad child) (stripF bad sib)

/-- An element predicate: receives the tag and the attribute list. -/
abbrev Pred := String → List (String × String) → Bool

/-- select_one(selector) followed by decompose of bad-tagged descendants and
get_text(separator=newline, strip=True) on the matched element: returns the
extracted text and the updated (mutated) document, or none when no element
matches. The first match in document (pre-order) wins. -/
def selStrip (p : Pred) (bad : List String) : N → Option (String × N)
  | .nil => none
  | .text s sib => (selStrip p bad sib).map fun pr => (pr.1, N.text s pr.2)
  | .elem t a child sib =>
    if p t a then
      some (getText "\n" (stripF bad child), N.elem t a (stripF bad child) sib)
    else
      match selStrip p bad child with
      | some (txt, child2) => some (txt, N.elem t a child2 sib)
      | none => (selStrip p bad sib).map fun pr => (pr.1, N.elem t a child pr.2)

/-- soup.find(...): first element (pre-order) satisfying the predicate;
returns its tag, attributes and child forest. -/
def findElem (p : Pred) : N → Option (String × List (String × String) × N)
  | .nil => none
  | .text _ sib => findElem p sib
  | .elem t a child sib =>
    if p t a then some (t, a, child)
    else
      match findElem p child with
      | some r => some r
      | none => findElem p sib

/-- No element in the forest carries a tag from the list. -/
def cleanF (bad : List String) : N → Bool
  | .nil => true
  | .text _ sib => cleanF bad sib
  | .elem t _ child sib => !bad.contains t && cleanF bad child && cleanF bad sib

/-- Number of elements with the given tag (used to witness document mutation). -/
def countTag (tg : String) : N → Nat
  | .nil => 0
  | .text _ sib => countTag tg sib
  | .elem t _ child sib =>
    (if t = tg then 1 else 0) + countTag tg child + countTag tg sib

/-! ## The concrete selectors used by web_crawler.py -/

/-- First value of an attribute by name. -/
def getAttr (name : String) : List (String × String) → Option String
  | [] => none
  | (k, v) :: rest => if k = name then some v else getAttr name rest

/-- The raw class attribute value, empty when absent. -/
def classAttr (a : List (String × String)) : String := (getAttr "class" a).getD ""

/-- The whitespace-separated class tokens of an element. -/
def classTokens (a : List (String × String)) : List String := splitWs (classAttr a)

/-- CSS selector tag.cls: the tag with cls among its class tokens. -/
def selTagCls (tag cls : String) : Pred := fun t a => t = tag && (classTokens a).contains cls

/-- CSS selector by tag name alone. -/
def selTag (tag : String) : Pred := fun t _ => t = tag

/-- CSS selector with a class-attribute substring test on a tag. -/
def selTagClsSub (tag sub : String) : Pred := fun t a => t = tag && strHas (classAttr a) sub

/-- CSS selector with a class-attribute substring test on any tag. -/
def selClsSub (sub : String) : Pred := fun _ a => strHas (classAttr a) sub

/-- soup.find(tag, dict(id=idv)). -/
def selTagId (tag idv : String) : Pred := fun t a => t = tag && getAttr "id" a == some idv

/-- Tags decomposed inside a matched specific-selector candidate (line 85 etc.). -/
def badTags : List String := ["script", "style", "nav", "footer", "header"]

/-- Tags decomposed in the fallback paths, which add aside (lines 96, 174, 182). -/
def badTagsAll : List String := ["script", "style", "nav", "footer", "header", "aside"]

/-- find('main'). -/
def isMainP : Pred := selTag "main"

/-- find('article'). -/
def isArticleP : Pred := selTag "article"

/-- find('div', id 'content'). -/
def isDivIdContentP : Pred := selTagId "div" "content"

/-- find('div', class 'content'). -/
def isDivClsContentP : Pred := selTagCls "div" "content"

/-- The selector list of extract_southcn (lines 71-79). -/
def southcnSelectors : List Pred :=
  [selTagCls "div" "article-content", selTagCls "div" "content",
   selTagCls "div" "article-body", selTagClsSub "div" "content",
   selTagClsSub "div" "article", selTag "article", selTagCls "div" "text"]

/-- The selector list of extract_ycwb (lines 106-115). -/
def ycwbSelectors : List Pred :=
  [selTagCls "div" "article-content", selTagCls "div" "content",
   selTagCls "div" "article-body", selTagClsSub "div" "content",
   selTagClsSub "div" "article", selTag "article", selTagCls "div" "text",
   selTagCls "div" "main-content"]

/-- The selector list of extract_chinanews (lines 139-147). -/
def chinanewsSelectors : List Pred :=
  [selTagCls "div" "left_zw", selTagCls "div" "content",
   selTagCls "div" "article-content", selTagClsSub "div" "content",
   selTagClsSub "div" "article", selTag "article", selTagCls "div" "text"]

/-! ## The two-tier extraction algorithm -/

/-- State after the specific-selector for-loop: the current content string,
the (possibly mutated) document, and every text computed by a matching
selector, in order (ending with the text that broke the loop, if any). -/
structure LoopOut where
  content : String
  soup : N
  yields : List String
deriving Repr, DecidableEq

/-- One iteration of the specific-selector for-loop: when the selector did
not match, continue unchanged (skip); when it matched with text txt and
mutated document soup2, break when the text is longer than 200 characters,
else continue with content txt on soup2. -/
def selLoopStep : Option (String × N) → LoopOut → (String → N → LoopOut) → LoopOut
  | none, skip, _ => skip
  | some (txt, soup2), _, next =>
    if 200 < txt.length then ⟨txt, soup2, [txt]⟩
    else ⟨(next txt soup2).content, (next txt soup2).soup, txt :: (next txt soup2).yields⟩

/-- The for-loop over the specific selectors (lines 81-89): each matching
selector decomposes script/style/nav/footer/header inside its match and
recomputes content; a text longer than 200 characters breaks the loop. -/
def selLoop (bad : List String) : List Pred → N → String → LoopOut
  | [], soup, content => ⟨content, soup, []⟩
  | sel :: rest, soup, content =>
    selLoopStep (selStrip sel bad soup) (selLoop bad rest soup content)
      (fun txt soup2 => selLoop bad rest soup2 txt)

/-- find('main') or find('article'-like p2) or find(p3): the predicate whose
first match the fallback will strip and read, if any (Python or-chaining). -/
def orFind3 (p1 p2 p3 : Pred) (soup : N) : Option Pred :=
  if (findElem p1 soup).isSome then some p1
  else if (findElem p2 soup).isSome then some p2
  else if (findElem p3 soup).isSome then some p3
  else none

/-- Strip-and-read the first match of the chosen predicate, keeping the
current content when there is none (the shared body of the fallbacks). -/
def applyFallback (soup : N) (content : String) : Option Pred → String × N
  | none => (content, soup)
  | some p =>
    match selStrip p badTagsAll soup with
    | some (txt, soup2) => (txt, soup2)
    | none => (content, soup)

/-- The generic fallback of the known-source extractors (lines 92-98):
when content is empty or shorter than 200, re-extract from the first of
main, article, div id=content, additionally decomposing aside. -/
def fallbackKnown (soup : N) (content : String) : String × N :=
  if content = "" ∨ content.length < 200 then
    applyFallback soup content (orFind3 isMainP isArticleP isDivIdContentP soup)
  else (content, soup)

/-- extract_southcn (lines 66-100): selector loop, then generic fallback. -/
def extract_southcn (soup : N) : String × N :=
  fallbackKnown (selLoop badTags southcnSelectors soup "").soup
    (selLoop badTags southcnSelectors soup "").content

/-- extract_ycwb (lines 102-133): same algorithm, its own selector list. -/
def extract_ycwb (soup : N) : String × N :=
  fallbackKnown (selLoop badTags ycwbSelectors soup "").soup
    (selLoop badTags ycwbSelectors soup "").content

/-- extract_chinanews (lines 135-165): same algorithm, its own selector list. -/
def extract_chinanews (soup : N) : String × N :=
  fallbackKnown (selLoop badTags chinanewsSelectors soup "").soup
    (selLoop badTags chinanewsSelectors soup "").content

/-- The second tier of extract_generic (lines 178-184): when content is empty
or shorter than 200, re-extract from the first of main, div id=content,
div class=content, decomposing the aside-extended tag list. -/
def genericFallback (soup : N) (content : String) : String × N :=
  if content = "" ∨ content.length < 200 then
    applyFallback soup content (orFind3 isMainP isDivIdContentP isDivClsContentP soup)
  else (content, soup)

/-- extract_generic (lines 167-186): try article first (stripping the
aside-extended tag list), then the generic content-region fallback. -/
def extract_generic (soup : N) : String × N :=
  match selStrip isArticleP badTagsAll soup with
  | some (txt, soup2) => genericFallback soup2 txt
  | none => genericFallback soup ""

/-! ## Title and metadata extraction -/

/-- The title selector list (lines 190-196). -/
def titleSelectors : List Pred :=
  [selTag "h1", selTag "title", selTagCls "h1" "article-title",
   selTagCls "div" "title", selTagClsSub "h1" "title"]

/-- The title loop (lines 198-205): first selector whose match has stripped
text longer than 5 characters wins; otherwise the empty string. -/
def titleLoop : List Pred → N → String
  | [], _ => ""
  | sel :: rest, soup =>
    match findElem sel soup with
    | some (_, _, child) =>
      if getText "" child ≠ "" ∧ 5 < (getText "" child).length then getText "" child
      else titleLoop rest soup
    | none => titleLoop rest soup

/-- extract_title (lines 188-205). -/
def extract_title (soup : N) : String := titleLoop titleSelectors soup

/-- The author selector list (lines 216-222). -/
def authorSelectors : List Pred :=
  [selTagCls "span" "author", selTagCls "div" "author", selTagCls "p" "author",
   selClsSub "author", selClsSub "byline"]

/-- The date selector list (lines 231-238). -/
def dateSelectors : List Pred :=
  [selTagCls "span" "date", selTagCls "div" "date", selTagCls "p" "date",
   selTag "time", selClsSub "date", selClsSub "time"]

/-- First selector with a matching element sets the field (break on first
match, even when its text is empty); otherwise the empty string. -/
def firstSelText : List Pred → N → String
  | [], _ => ""
  | sel :: rest, soup =>
    match findElem sel soup with
    | some (_, _, child) => getText "" child
    | none => firstSelText rest soup

/-- extract_metadata (lines 207-246): a record with exactly the keys
author, publish_date and source_url, in insertion order. -/
def extract_metadata (soup : N) (url : String) : List (String × String) :=
  [("author", firstSelText authorSelectors soup),
   ("publish_date", firstSelText dateSelectors soup),
   ("source_url", url)]

/-! ## Source classification (identify_source, lines 53-64)

identify_source computes urlparse(url).netloc.lower() and dispatches on
substring membership. The netloc computation models CPython urllib.parse:
strip a valid scheme prefix, then, when the remainder starts with two
slashes, the netloc is what follows up to the next slash, question mark or
hash; a netloc with an unbalanced square bracket raises
ValueError('Invalid IPv6 URL'), which propagates out of identify_source. -/

/-- Characters allowed in a URL scheme after the first letter. -/
def isSchemeChar (c : Char) : Bool := c.isAlpha || c.isDigit || c = '+' || c = '-' || c = '.'

/-- The netloc stops at the first slash, question mark or hash. -/
def takeNetloc : List Char → List Char
  | [] => []
  | c :: rest => if c = '/' || c = '?' || c = '#' then [] else c :: takeNetloc rest

/-- Drop a leading valid scheme and its colon, when present. -/
def afterScheme (l : List Char) : List Char :=
  let pre := l.takeWhile (fun c => !(c = ':'))
  if pre.length < l.length && !pre.isEmpty && (pre.headD ' ').isAlpha && pre.all isSchemeChar then
    l.drop (pre.length + 1)
  else l

/-- urlparse(url).netloc, with the Invalid IPv6 URL failure of urlsplit. -/
def urlparse_netloc (url : String) : Except String String :=
  match afterScheme url.data with
  | '/' :: '/' :: r =>
    if (takeNetloc r).contains '[' && !(takeNetloc r).contains ']'
        || (takeNetloc r).contains ']' && !(takeNetloc r).contains '[' then
      Except.error "Invalid IPv6 URL"
    else Except.ok (String.mk (takeNetloc r))
  | _ => Except.ok ""

/-- The SourceId enumeration. -/
inductive SourceId where
  | southcn
  | ycwb
  | chinanews
  | unknown
deriving Repr, DecidableEq

/-- identify_source (lines 53-64): substring dispatch on the lowercased
netloc, first match wins; an error of the URL parser propagates. -/
def identify_source (url : String) : Except String SourceId :=
  match urlparse_netloc url with
  | Except.error e => Except.error e
  | Except.ok netloc =>
    Except.ok
      (if strHas (pyLower netloc) "southcn.com" || strHas (pyLower netloc) "southcn" then
        SourceId.southcn
      else if strHas (pyLower netloc) "ycwb.com" then SourceId.ycwb
      else if strHas (pyLower netloc) "chinanews.com.cn" then SourceId.chinanews
      else SourceId.unknown)

/-- Modelled from the spec: the claim speaks of the URL's host, the part of
the authority after any userinfo and before any port, lowercased (the
hostname attribute of a parsed URL). This definition follows the claim's
wording and exists only to compare the spec against identify_source, which
uses the full netloc instead. -/
def hostOf (url : String) : Except String String :=
  (urlparse_netloc url).map (fun nl =>
    pyLower (String.mk ((nl.data.reverse.takeWhile (fun c => !(c = '@'))).reverse.takeWhile
      (fun c => !(c = ':')))))

/-- Modelled from the spec: the classification the (amended) claim describes,
as a function of the lowercased authority string: southcn when it contains
the substring southcn, else ycwb when it contains ycwb.com, else chinanews
when it contains chinanews.com.cn, else unknown. -/
def classifyDomain (domain : String) : SourceId :=
  if strHas domain "southcn" then SourceId.southcn
  else if strHas domain "ycwb.com" then SourceId.ycwb
  else if strHas domain "chinanews.com.cn" then SourceId.chinanews
  else SourceId.unknown

/-! ## Result assembly (crawl_article, lines 248-312) -/

/-- The outcome of the network fetch for the one URL being crawled; the
request itself is external I/O, so it enters the model as an oracle. -/
inductive NetOutcome where
  | ok (body : String)
  | timeout
  | reqError (msg : String)
  | otherError (msg : String)
deriving Repr, DecidableEq

/-- fetch_url (lines 31-51): success flag and body, or the error message the
except clauses produce (timeout, request error, unexpected error). -/
def fetch_url (net : NetOutcome) : Bool × String :=
  match net with
  | NetOutcome.ok body => (true, body)
  | NetOutcome.timeout => (false, "Request timeout")
  | NetOutcome.reqError m => (false, "Request error: " ++ m)
  | NetOutcome.otherError m => (false, "Unexpected error: " ++ m)

/-- The ExtractionResult record built by crawl_article. -/
structure CrawlResult where
  url : String
  success : Bool
  source : SourceId
  title : String
  content : String
  content_length : Nat
  metadata : List (String × String)
  error : Option String
deriving Repr, DecidableEq

/-- The initial result record (lines 258-267). -/
def emptyResult (url : String) (src : SourceId) : CrawlResult :=
  ⟨url, false, src, "", "", 0, [], none⟩

/-- The per-source dispatch of content extraction (lines 291-298). -/
def extractBySource (src : SourceId) (soup : N) : String × N :=
  match src with
  | SourceId.southcn => extract_southcn soup
  | SourceId.ycwb => extract_ycwb soup
  | SourceId.chinanews => extract_chinanews soup
  | SourceId.unknown => extract_generic soup

/-- The assembly steps after a successful fetch and parse (lines 287-312):
title from the fresh soup, content by source dispatch (which mutates the
soup), metadata from the mutated soup, then the success threshold: success
iff content is truthy and longer than 100 characters, else the
content-too-short error message. -/
def crawlParsed (url : String) (src : SourceId) (soup : N) : CrawlResult :=
  if (extractBySource src soup).1 ≠ "" ∧ 100 < (extractBySource src soup).1.length then
    ⟨url, true, src, extract_title soup, (extractBySource src soup).1,
      (extractBySource src soup).1.length,
      extract_metadata (extractBySource src soup).2 url, none⟩
  else
    ⟨url, false, src, extract_title soup, (extractBySource src soup).1,
      (extractBySource src soup).1.length,
      extract_metadata (extractBySource src soup).2 url,
      some ("Extracted content too short ("
        ++ natToStr (extractBySource src soup).1.length ++ " chars)")⟩

/-- crawl_article (lines 248-312): classify, fetch, parse, then assemble;
fetch or parse failure short-circuits with the error recorded and no
extraction performed. The HTML parser is an oracle argument. -/
def crawl_article (url : String) (net : NetOutcome)
    (parse : String → Except String N) : Except String CrawlResult :=
  match identify_source url with
  | Except.error e => Except.error e
  | Except.ok src =>
    match fetch_url net with
    | (false, msg) => Except.ok { emptyResult url src with error := some msg }
    | (true, html) =>
      match parse html with
      | Except.error e =>
        Except.ok { emptyResult url src with error := some ("HTML parsing error: " ++ e) }
      | Except.ok soup => Except.ok (crawlParsed url src soup)

/-! ## Concrete documents used by counterexamples and witnesses -/

/-- A string of n copies of one character. -/
def repChar (n : Nat) (c : Char) : String := String.mk (List.replicate n c)

/-- An article whose text is exactly 200 characters, then a div of class
text with tiny text, then a main with different text: the 200-character
candidate does not break the specific-selector loop. -/
def soupEx200 : N :=
  N.elem "article" [] (N.text (repChar 200 'a') N.nil)
    (N.elem "div" [("class", "text")] (N.text "bb" N.nil)
      (N.elem "main" [] (N.text "MAINTEXT" N.nil) N.nil))

/-- A div of class content holding a footer (which hides a div of class
article-content) and 220 characters of text, followed by a second div of
class article-content with 250 characters: extraction mutates the document
so a second run returns different text. -/
def soupMut : N :=
  N.elem "div" [("class", "content")]
    (N.elem "footer" []
      (N.elem "div" [("class", "article-content")] (N.text "xx" N.nil) N.nil)
      (N.text (repChar 220 'y') N.nil))
    (N.elem "div" [("class", "article-content")] (N.text (repChar 250 'z') N.nil) N.nil)

/-- An article containing a script: extraction decomposes the script in
place, so the document is changed after extraction returns. -/
def soupScript : N :=
  N.elem "article" []
    (N.elem "script" [] (N.text "bad" N.nil) (N.text "hello" N.nil)) N.nil

/-- An article with 210 characters next to a main: extract_generic reads the
article, not the main, although a main is present. -/
def soupArtMain : N :=
  N.elem "article" [] (N.text (repChar 210 'a') N.nil)
    (N.elem "main" [] (N.text "MMM" N.nil) N.nil)

/-- A document with no article, no main, no content-identified container. -/
def soupPlain : N :=
  N.elem "html" []
    (N.elem "body" [] (N.elem "p" [] (N.text "hi" N.nil) N.nil) N.nil) N.nil

/-- A second such bare document. -/
def soupBare : N := N.elem "p" [] (N.text "zz" N.nil) N.nil

/-- A lone div of class content with short text: every specific-selector
candidate yields fewer than 200 characters. -/
def soupShort : N := N.elem "div" [("class", "content")] (N.text "short" N.nil) N.nil

/-- A clean article (no strippable tags) with 150 characters. -/
def soupCleanArt : N := N.elem "article" [] (N.text (repChar 150 'q') N.nil) N.nil

/-- A clean article (no strippable tags) with 250 characters. -/
def soupCleanLong : N := N.elem "article" [] (N.text (repChar 250 'a') N.nil) N.nil

/-- A lone main element with tiny text. -/
def soupMainOnly : N := N.elem "main" [] (N.text "mm" N.nil) N.nil

/-! ## Lemmas about substring membership -/

theorem leadMatch_trans : ∀ b a s : List Char,
    leadMatch b a = true → leadMatch a s = true → leadMatch b s = true
  | [], _, _, _, _ => rfl
  | _ :: _, [], _, h, _ => by simp [leadMatch] at h
  | _ :: _, _ :: _, [], _, h => by simp [leadMatch] at h
  | b :: bs, a :: as, s :: ss, h1, h2 => by
    simp only [leadMatch, Bool.and_eq_true, decide_eq_true_eq] at h1 h2 ⊢
    exact ⟨h1.1.trans h2.1, leadMatch_trans bs as ss h1.2 h2.2⟩

theorem leadMatch_nil_right : ∀ b : List Char, leadMatch b [] = true → b = []
  | [], _ => rfl
  | _ :: _, h => by simp [leadMatch] at h

theorem subAt_mono : ∀ (b a l : List Char),
    leadMatch b a = true → subAt a l = true → subAt b l = true := by
  intro b a l
  induction l with
  | nil =>
    intro h1 h2
    simp only [subAt, List.isEmpty_iff] at h2
    subst h2
    simp only [subAt, List.isEmpty_iff]
    exact leadMatch_nil_right b h1
  | cons c rest ih =>
    intro h1 h2
    simp only [subAt, Bool.or_eq_true] at h2 ⊢
    rcases h2 with h2 | h2
    · exact Or.inl (leadMatch_trans b a (c :: rest) h1 h2)
    · exact Or.inr (ih h1 h2)

/-- A string containing southcn.com contains southcn. -/
theorem strHas_southcn_of_com (d : String) (h : strHas d "southcn.com" = true) :
    strHas d "southcn" = true :=
  subAt_mono ("southcn".data) ("southcn.com".data) d.data (by decide) h

/-! ## Lemmas about stripping, cleanliness and search -/

theorem stripF_clean (bad : List String) (l : N) (h : cleanF bad l = true) :
    stripF bad l = l := by
  induction l with
  | nil => rfl
  | text s sib ih => simp only [cleanF] at h; simp only [stripF, ih h]
  | elem t a child sib ih1 ih2 =>
    simp only [cleanF, Bool.and_eq_true, Bool.not_eq_true'] at h
    obtain ⟨⟨h1, h2⟩, h3⟩ := h
    simp only [stripF, h1, Bool.false_eq_true, if_false, ih1 h2, ih2 h3]

theorem contains_badTags_of_all (t : String) (h : badTagsAll.contains t = false) :
    badTags.contains t = false := by
  simp only [badTags, badTagsAll, List.contains, List.elem_eq_mem, decide_eq_false_iff_not,
    List.mem_cons, List.not_mem_nil, or_false] at h ⊢
  tauto

theorem cleanF_of_all (l : N) (h : cleanF badTagsAll l = true) : cleanF badTags l = true := by
  induction l with
  | nil => rfl
  | text s sib ih => simp only [cleanF] at h ⊢; exact ih h
  | elem t a child sib ih1 ih2 =>
    simp only [cleanF, Bool.and_eq_true, Bool.not_eq_true'] at h ⊢
    exact ⟨⟨contains_badTags_of_all t h.1.1, ih1 h.1.2⟩, ih2 h.2⟩

theorem selStrip_clean (p : Pred) (bad : List String) (l : N) (h : cleanF bad l = true) :
    ∀ txt l2, selStrip p bad l = some (txt, l2) → l2 = l := by
  induction l with
  | nil => intro txt l2 hs; simp [selStrip] at hs
  | text s sib ih =>
    intro txt l2 hs
    simp only [cleanF] at h
    simp only [selStrip, Option.map_eq_some'] at hs
    obtain ⟨⟨t2, s2⟩, hrec, heq⟩ := hs
    obtain ⟨-, h2⟩ := Prod.mk.injEq .. ▸ heq
    cases heq
    simp only [ih h _ _ hrec]
  | elem t a child sib ih1 ih2 =>
    intro txt l2 hs
    simp only [cleanF, Bool.and_eq_true, Bool.not_eq_true'] at h
    obtain ⟨⟨h1, h2⟩, h3⟩ := h
    simp only [selStrip] at hs
    by_cases hp : p t a = true
    · rw [if_pos hp] at hs
      obtain ⟨-, rfl⟩ := Prod.mk.injEq .. ▸ Option.some.injEq .. ▸ hs
      rw [stripF_clean bad child h2]
    · rw [if_neg hp] at hs
      cases hrec : selStrip p bad child with
      | some pr =>
        rw [hrec] at hs
        obtain ⟨tc, sc⟩ := pr
        obtain ⟨-, rfl⟩ := Prod.mk.injEq .. ▸ Option.some.injEq .. ▸ hs
        rw [ih1 h2 _ _ hrec]
      | none =>
        rw [hrec, Option.map_eq_some'] at hs
        obtain ⟨⟨t2, s2⟩, hrec2, heq⟩ := hs
        cases heq
        rw [ih2 h3 _ _ hrec2]

theorem selLoop_soup_clean (sels : List Pred) (soup : N) (c : String)
    (h : cleanF badTagsAll soup = true) :
    (selLoop badTags sels soup c).soup = soup := by
  induction sels generalizing c with
  | nil => rfl
  | cons sel rest ih =>
    simp only [selLoop]
    cases hs : selStrip sel badTags soup with
    | none => simp only [selLoopStep]; exact ih c
    | some pr =>
      obtain ⟨txt, soup2⟩ := pr
      have h2 : soup2 = soup := selStrip_clean sel badTags soup (cleanF_of_all soup h) txt soup2 hs
      subst h2
      simp only [selLoopStep]
      by_cases hl : 200 < txt.length
      · simp only [if_pos hl]
      · simp only [if_neg hl]
        exact ih txt

theorem applyFallback_clean (soup : N) (c : String) (po : Option Pred)
    (h : cleanF badTagsAll soup = true) : (applyFallback soup c po).2 = soup := by
  cases po with
  | none => rfl
  | some p =>
    simp only [applyFallback]
    cases hs : selStrip p badTagsAll soup with
    | none => rfl
    | some pr =>
      obtain ⟨txt, soup2⟩ := pr
      simpa using selStrip_clean p badTagsAll soup h txt soup2 hs

theorem fallbackKnown_clean (soup : N) (c : String) (h : cleanF badTagsAll soup = true) :
    (fallbackKnown soup c).2 = soup := by
  unfold fallbackKnown
  split
  · exact applyFallback_clean soup c _ h
  · rfl

theorem genericFallback_clean (soup : N) (c : String) (h : cleanF badTagsAll soup = true) :
    (genericFallback soup c).2 = soup := by
  unfold genericFallback
  split
  · exact applyFallback_clean soup c _ h
  · rfl

theorem extract_southcn_clean (soup : N) (h : cleanF badTagsAll soup = true) :
    (extract_southcn soup).2 = soup := by
  unfold extract_southcn
  rw [selLoop_soup_clean southcnSelectors soup "" h]
  exact fallbackKnown_clean soup _ h

theorem extract_ycwb_clean (soup : N) (h : cleanF badTagsAll soup = true) :
    (extract_ycwb soup).2 = soup := by
  unfold extract_ycwb
  rw [selLoop_soup_clean ycwbSelectors soup "" h]
  exact fallbackKnown_clean soup _ h

theorem extract_chinanews_clean (soup : N) (h : cleanF badTagsAll soup = true) :
    (extract_chinanews soup).2 = soup := by
  unfold extract_chinanews
  rw [selLoop_soup_clean chinanewsSelectors soup "" h]
  exact fallbackKnown_clean soup _ h

theorem extract_generic_clean (soup : N) (h : cleanF badTagsAll soup = true) :
    (extract_generic soup).2 = soup := by
  unfold extract_generic
  cases hs : selStrip isArticleP badTagsAll soup with
  | none => exact genericFallback_clean soup "" h
  | some pr =>
    obtain ⟨txt, soup2⟩ := pr
    have h2 : soup2 = soup := selStrip_clean isArticleP badTagsAll soup h txt soup2 hs
    rw [h2]
    exact genericFallback_clean soup txt h

theorem extractBySource_clean (src : SourceId) (soup : N) (h : cleanF badTagsAll soup = true) :
    (extractBySource src soup).2 = soup := by
  cases src with
  | southcn => exact extract_southcn_clean soup h
  | ycwb => exact extract_ycwb_clean soup h
  | chinanews => exact extract_chinanews_clean soup h
  | unknown => exact extract_generic_clean soup h

theorem findElem_none_selStrip (p : Pred) (bad : List String) (l : N)
    (h : findElem p l = none) : selStrip p bad l = none := by
  induction l with
  | nil => rfl
  | text s sib ih =>
    simp only [findElem] at h
    simp only [selStrip, ih h, Option.map_none']
  | elem t a child sib ih1 ih2 =>
    simp only [findElem] at h
    by_cases hp : p t a = true
    · rw [if_pos hp] at h
      exact absurd h (by simp)
    · rw [if_neg hp] at h
      simp only [selStrip, if_neg hp]
      cases hc : findElem p child with
      | some r => rw [hc] at h; exact absurd h (by simp)
      | none =>
        rw [hc] at h
        rw [ih1 hc]
        simp only [ih2 h, Option.map_none']

theorem findElem_some_selStrip (p : Pred) (bad : List String) (l : N)
    (tg : String) (ats : List (String × String)) (ch : N)
    (h : findElem p l = some (tg, ats, ch)) :
    ∃ l2, selStrip p bad l = some (getText "\n" (stripF bad ch), l2) := by
  induction l with
  | nil => simp [findElem] at h
  | text s sib ih =>
    simp only [findElem] at h
    obtain ⟨l2, hl2⟩ := ih h
    exact ⟨N.text s l2, by simp only [selStrip, hl2, Option.map_some']⟩
  | elem t a child sib ih1 ih2 =>
    simp only [findElem] at h
    by_cases hp : p t a = true
    · rw [if_pos hp] at h
      rw [Option.some.injEq, Prod.mk.injEq] at h
      obtain ⟨rfl, h⟩ := h
      rw [Prod.mk.injEq] at h
      obtain ⟨rfl, rfl⟩ := h
      exact ⟨N.elem t a (stripF bad child) sib, by simp only [selStrip, if_pos hp]⟩
    · rw [if_neg hp] at h
      cases hc : findElem p child with
      | some r =>
        rw [hc] at h
        cases h
        obtain ⟨l2, hl2⟩ := ih1 hc
        exact ⟨N.elem t a l2 sib, by simp only [selStrip, if_neg hp, hl2]⟩
      | none =>
        rw [hc] at h
        obtain ⟨l2, hl2⟩ := ih2 h
        refine ⟨N.elem t a child l2, ?_⟩
        simp only [selStrip, if_neg hp, findElem_none_selStrip p bad child hc, hl2,
          Option.map_some']

theorem selLoop_content_mem (bad : List String) (sels : List Pred) :
    ∀ (soup : N) (c0 : String),
      (selLoop bad sels soup c0).content = c0 ∨
        (selLoop bad sels soup c0).content ∈ (selLoop bad sels soup c0).yields := by
  induction sels with
  | nil => intro soup c0; exact Or.inl rfl
  | cons sel rest ih =>
    intro soup c0
    simp only [selLoop]
    cases hs : selStrip sel bad soup with
    | none => simp only [selLoopStep]; exact ih soup c0
    | some pr =>
      obtain ⟨txt, soup2⟩ := pr
      simp only [selLoopStep]
      by_cases hl : 200 < txt.length
      · rw [if_pos hl]
        exact Or.inr (List.mem_singleton.mpr rfl)
      · rw [if_neg hl]
        rcases ih soup2 txt with h | h
        · exact Or.inr (by rw [h]; exact List.mem_cons_self _ _)
        · exact Or.inr (List.mem_cons.mpr (Or.inr h))

theorem selLoop_break (bad : List String) (sels : List Pred) :
    ∀ (soup : N) (c0 t : String),
      t ∈ (selLoop bad sels soup c0).yields → 200 < t.length →
        (selLoop bad sels soup c0).content = t := by
  induction sels with
  | nil => intro soup c0 t hm _; simp [selLoop] at hm
  | cons sel rest ih =>
    intro soup c0 t hm hl
    simp only [selLoop] at hm ⊢
    cases hs : selStrip sel bad soup with
    | none =>
      rw [hs] at hm
      simp only [selLoopStep] at hm ⊢
      exact ih soup c0 t hm hl
    | some pr =>
      obtain ⟨txt, soup2⟩ := pr
      rw [hs] at hm
      simp only [selLoopStep] at hm ⊢
      by_cases hb : 200 < txt.length
      · simp only [hb, if_true] at hm ⊢
        exact (List.mem_singleton.mp hm).symm
      · simp only [hb, if_false] at hm ⊢
        rcases List.mem_cons.mp hm with rfl | hmem
        · exact absurd hl hb
        · exact ih soup2 txt t hmem hl

/-! ## Step lemmas for crawl_article -/

theorem crawl_article_fetchFail (url : String) (net : NetOutcome)
    (parse : String → Except String N) (src : SourceId) (msg : String)
    (hid : identify_source url = Except.ok src)
    (hf : fetch_url net = (false, msg)) :
    crawl_article url net parse
      = Except.ok { emptyResult url src with error := some msg } := by
  unfold crawl_article
  rw [hid, hf]

theorem crawl_article_parseFail (url html e : String)
    (parse : String → Except String N) (src : SourceId)
    (hid : identify_source url = Except.ok src)
    (hp : parse html = Except.error e) :
    crawl_article url (NetOutcome.ok html) parse
      = Except.ok { emptyResult url src with
          error := some ("HTML parsing error: " ++ e) } := by
  unfold crawl_article
  rw [hid]
  simp only [fetch_url]
  rw [hp]

theorem crawl_article_parsed (url html : String) (soup : N)
    (parse : String → Except String N) (src : SourceId)
    (hid : identify_source url = Except.ok src)
    (hp : parse html = Except.ok soup) :
    crawl_article url (NetOutcome.ok html) parse
      = Except.ok (crawlParsed url src soup) := by
  unfold crawl_article
  rw [hid]
  simp only [fetch_url]
  rw [hp]

/-! ## Claim C4: source classification -/

/-- C4 counterexample: the claim says the dispatch is on the URL's host and
that identify_source never raises. The code dispatches on the full netloc
(userinfo included): for a URL whose host is evil.com but whose userinfo
contains southcn, it returns southcn where the claim requires unknown; and
a URL with an unbalanced bracket makes the URL parser, and hence
identify_source, raise Invalid IPv6 URL. -/
theorem c4_counterexample :
    identify_source "http://a.southcn@evil.com/x" = Except.ok SourceId.southcn ∧
    hostOf "http://a.southcn@evil.com/x" = Except.ok "evil.com" ∧
    strHas "evil.com" "southcn" = false ∧
    strHas "evil.com" "ycwb.com" = false ∧
    strHas "evil.com" "chinanews.com.cn" = false ∧
    SourceId.southcn ≠ SourceId.unknown ∧
    identify_source "http://[" = Except.error "Invalid IPv6 URL" := by
  refine ⟨rfl, rfl, rfl, rfl, rfl, by decide, rfl⟩

/-- C4 (amended): for every URL string on which URL parsing succeeds,
identify_source returns southcn when the lowercased authority (the netloc:
userinfo, host and port) contains southcn, ycwb when it contains ycwb.com,
chinanews when it contains chinanews.com.cn, first match in that fixed
order winning, and unknown otherwise; when the URL parser rejects the URL
(unbalanced bracket in the authority) identify_source propagates that
error instead of returning. -/
theorem c4_netloc_dispatch (url : String) :
    (∀ netloc, urlparse_netloc url = Except.ok netloc →
      identify_source url = Except.ok (classifyDomain (pyLower netloc))) ∧
    (∀ e, urlparse_netloc url = Except.error e →
      identify_source url = Except.error e) := by
  constructor
  · intro netloc hn
    unfold identify_source classifyDomain
    rw [hn]
    cases h1 : strHas (pyLower netloc) "southcn" with
    | true => simp only [h1, Bool.or_true, if_true]
    | false =>
      have h2 : strHas (pyLower netloc) "southcn.com" = false := by
        cases hc : strHas (pyLower netloc) "southcn.com"
        · rfl
        · exact absurd (strHas_southcn_of_com _ hc) (by simp [h1])
      simp only [h1, h2, Bool.or_false]
  · intro e he
    unfold identify_source
    rw [he]

/-- C4 amended witness: at a concrete southcn URL the parser yields the
netloc news.southcn.com and the dispatch returns southcn. -/
theorem c4_netloc_dispatch_witness :
    identify_source "http://news.southcn.com/a"
        = Except.ok (classifyDomain (pyLower "news.southcn.com")) ∧
    classifyDomain (pyLower "news.southcn.com") = SourceId.southcn :=
  ⟨(c4_netloc_dispatch "http://news.southcn.com/a").1 "news.southcn.com" rfl, by decide⟩

/-! ## Claim C5: timeout short-circuit -/

/-- C5: when the network fetch times out, crawl_article returns success
false with the timeout message as the error, the result does not depend on
the HTML parser (no parsing or extraction is attempted: title, content and
metadata stay at their initial empty values), and the recorded error
contains the word timeout. -/
theorem c5_timeout_short_circuit (url : String) (src : SourceId)
    (parse parse2 : String → Except String N)
    (hid : identify_source url = Except.ok src) :
    crawl_article url NetOutcome.timeout parse
        = Except.ok { emptyResult url src with error := some "Request timeout" } ∧
    crawl_article url NetOutcome.timeout parse
        = crawl_article url NetOutcome.timeout parse2 ∧
    ({ emptyResult url src with error := some "Request timeout" } : CrawlResult).success = false ∧
    ({ emptyResult url src with error := some "Request timeout" } : CrawlResult).title = "" ∧
    ({ emptyResult url src with error := some "Request timeout" } : CrawlResult).content = "" ∧
    ({ emptyResult url src with error := some "Request timeout" } : CrawlResult).metadata = [] ∧
    strHas "Request timeout" "timeout" = true := by
  have h1 := crawl_article_fetchFail url NetOutcome.timeout parse src "Request timeout" hid rfl
  have h2 := crawl_article_fetchFail url NetOutcome.timeout parse2 src "Request timeout" hid rfl
  exact ⟨h1, h1.trans h2.symm, rfl, rfl, rfl, rfl, by decide⟩

/-- C5 witness: concrete URL, timeout outcome, an arbitrary failing parser. -/
theorem c5_timeout_witness :
    crawl_article "http://example.com/" NetOutcome.timeout (fun _ => Except.error "boom")
      = Except.ok { emptyResult "http://example.com/" SourceId.unknown with
          error := some "Request timeout" } :=
  (c5_timeout_short_circuit "http://example.com/" SourceId.unknown
    (fun _ => Except.error "boom") (fun _ => Except.ok N.nil) rfl).1

/-! ## Claim C1: the success threshold -/

/-- C1: every result crawl_article returns has success true exactly when
content is non-empty and content_length exceeds 100; when success is false
the error field is populated with the reason: the fetch failure message,
the parse failure message, or the content-too-short message. -/
theorem c1_success_threshold (url : String) (net : NetOutcome)
    (parse : String → Except String N) (r : CrawlResult)
    (h : crawl_article url net parse = Except.ok r) :
    (r.success = true ↔ (r.content ≠ "" ∧ 100 < r.content_length)) ∧
    (r.success = false → ∃ m, r.error = some m ∧
      (fetch_url net = (false, m) ∨
       (∃ html e, net = NetOutcome.ok html ∧ parse html = Except.error e ∧
          m = "HTML parsing error: " ++ e) ∨
       m = "Extracted content too short (" ++ natToStr r.content_length ++ " chars)")) := by
  cases hid : identify_source url with
  | error e =>
    unfold crawl_article at h
    rw [hid] at h
    exact absurd h (by simp)
  | ok src =>
    cases net with
    | timeout =>
      have hr := Except.ok.inj
        ((crawl_article_fetchFail url NetOutcome.timeout parse src "Request timeout" hid rfl).symm.trans h)
      subst hr
      exact ⟨by simp [emptyResult], fun _ => ⟨"Request timeout", rfl, Or.inl rfl⟩⟩
    | reqError m =>
      have hr := Except.ok.inj
        ((crawl_article_fetchFail url (NetOutcome.reqError m) parse src ("Request error: " ++ m) hid rfl).symm.trans h)
      subst hr
      exact ⟨by simp [emptyResult], fun _ => ⟨"Request error: " ++ m, rfl, Or.inl rfl⟩⟩
    | otherError m =>
      have hr := Except.ok.inj
        ((crawl_article_fetchFail url (NetOutcome.otherError m) parse src ("Unexpected error: " ++ m) hid rfl).symm.trans h)
      subst hr
      exact ⟨by simp [emptyResult], fun _ => ⟨"Unexpected error: " ++ m, rfl, Or.inl rfl⟩⟩
    | ok html =>
      cases hp : parse html with
      | error e =>
        have hr := Except.ok.inj
          ((crawl_article_parseFail url html e parse src hid hp).symm.trans h)
        subst hr
        exact ⟨by simp [emptyResult],
          fun _ => ⟨"HTML parsing error: " ++ e, rfl, Or.inr (Or.inl ⟨html, e, rfl, hp, rfl⟩)⟩⟩
      | ok soup =>
        have hr := Except.ok.inj
          ((crawl_article_parsed url html soup parse src hid hp).symm.trans h)
        subst hr
        unfold crawlParsed
        by_cases hc : (extractBySource src soup).1 ≠ "" ∧ 100 < (extractBySource src soup).1.length
        · rw [if_pos hc]
          exact ⟨iff_of_true rfl hc, fun hfalse => absurd hfalse (by simp)⟩
        · rw [if_neg hc]
          exact ⟨iff_of_false (by simp) hc,
            fun _ => ⟨_, rfl, Or.inr (Or.inr rfl)⟩⟩

/-- C1 witness: a failing fetch produces a result with success false, empty
content, and the fetch error message recorded; the theorem applied at a
concrete input. -/
theorem c1_success_threshold_witness :
    (({ emptyResult "http://example.com/" SourceId.unknown with
        error := some "Request error: x" } : CrawlResult).success = true ↔
      (({ emptyResult "http://example.com/" SourceId.unknown with
          error := some "Request error: x" } : CrawlResult).content ≠ "" ∧
        100 < ({ emptyResult "http://example.com/" SourceId.unknown with
          error := some "Request error: x" } : CrawlResult).content_length)) :=
  (c1_success_threshold "http://example.com/" (NetOutcome.reqError "x")
    (fun _ => Except.ok N.nil)
    { emptyResult "http://example.com/" SourceId.unknown with error := some "Request error: x" }
    rfl).1

/-! ## Claim C10: metadata presence -/

/-- C10: the metadata field of a crawl result is the empty record exactly
when the fetch-and-parse phase did not succeed; when fetch and parse both
succeeded, it carries exactly the keys author, publish_date and source_url,
the last bound to the input URL. -/
theorem c10_metadata_keys (url : String) (net : NetOutcome)
    (parse : String → Except String N) (r : CrawlResult)
    (h : crawl_article url net parse = Except.ok r) :
    ((∃ html soup, net = NetOutcome.ok html ∧ parse html = Except.ok soup) →
      ∃ a d, r.metadata = [("author", a), ("publish_date", d), ("source_url", url)]) ∧
    ((¬ ∃ html soup, net = NetOutcome.ok html ∧ parse html = Except.ok soup) →
      r.metadata = []) := by
  cases hid : identify_source url with
  | error e =>
    unfold crawl_article at h
    rw [hid] at h
    exact absurd h (by simp)
  | ok src =>
    cases net with
    | timeout =>
      have hr := Except.ok.inj
        ((crawl_article_fetchFail url NetOutcome.timeout parse src "Request timeout" hid rfl).symm.trans h)
      subst hr
      exact ⟨fun ⟨html, soup, hne, _⟩ => absurd hne (by simp), fun _ => rfl⟩
    | reqError m =>
      have hr := Except.ok.inj
        ((crawl_article_fetchFail url (NetOutcome.reqError m) parse src ("Request error: " ++ m) hid rfl).symm.trans h)
      subst hr
      exact ⟨fun ⟨html, soup, hne, _⟩ => absurd hne (by simp), fun _ => rfl⟩
    | otherError m =>
      have hr := Except.ok.inj
        ((crawl_article_fetchFail url (NetOutcome.otherError m) parse src ("Unexpected error: " ++ m) hid rfl).symm.trans h)
      subst hr
      exact ⟨fun ⟨html, soup, hne, _⟩ => absurd hne (by simp), fun _ => rfl⟩
    | ok html =>
      cases hp : parse html with
      | error e =>
        have hr := Except.ok.inj
          ((crawl_article_parseFail url html e parse src hid hp).symm.trans h)
        subst hr
        refine ⟨?_, fun _ => rfl⟩
        rintro ⟨html2, soup, hne, hps⟩
        cases hne
        rw [hp] at hps
        exact absurd hps (by simp)
      | ok soup =>
        have hr := Except.ok.inj
          ((crawl_article_parsed url html soup parse src hid hp).symm.trans h)
        subst hr
        refine ⟨fun _ => ⟨firstSelText authorSelectors (extractBySource src soup).2,
          firstSelText dateSelectors (extractBySource src soup).2, ?_⟩,
          fun habs => absurd ⟨html, soup, rfl, hp⟩ habs⟩
        unfold crawlParsed
        split
        · rfl
        · rfl

/-- C10 witness: a timeout leaves metadata as the empty record; the theorem
applied at a concrete input. -/
theorem c10_metadata_keys_witness :
    ({ emptyResult "http://example.com/" SourceId.unknown with
        error := some "Request timeout" } : CrawlResult).metadata = [] :=
  (c10_metadata_keys "http://example.com/" NetOutcome.timeout (fun _ => Except.ok N.nil)
    { emptyResult "http://example.com/" SourceId.unknown with error := some "Request timeout" }
    rfl).2 (fun ⟨html, soup, hne, _⟩ => absurd hne (by simp))

/-! ## Claim C9: empty extraction and the content-too-short error -/

theorem extract_generic_empty (soup : N)
    (h1 : findElem isArticleP soup = none) (h2 : findElem isMainP soup = none)
    (h3 : findElem isDivIdContentP soup = none) (h4 : findElem isDivClsContentP soup = none) :
    extract_generic soup = ("", soup) := by
  unfold extract_generic
  rw [findElem_none_selStrip isArticleP badTagsAll soup h1]
  show genericFallback soup "" = ("", soup)
  unfold genericFallback
  rw [if_pos (Or.inl rfl)]
  unfold orFind3
  rw [h2, h3, h4]
  rfl

/-- C9 counterexample: on a document with no article, no main and no
content-identified container, extract_generic does return the empty string
and the result has success false, but the recorded error string is
"Extracted content too short (0 chars)", not the claim's
"content too short (0 chars)". -/
theorem c9_counterexample :
    extract_generic soupPlain = ("", soupPlain) ∧
    crawl_article "http://example.com/a" (NetOutcome.ok "x") (fun _ => Except.ok soupPlain)
      = Except.ok ⟨"http://example.com/a", false, SourceId.unknown, "", "", 0,
          [("author", ""), ("publish_date", ""), ("source_url", "http://example.com/a")],
          some "Extracted content too short (0 chars)"⟩ ∧
    ("Extracted content too short (0 chars)" : String) ≠ "content too short (0 chars)" := by
  refine ⟨rfl, rfl, by decide⟩

/-- C9 (amended): given a fetched-and-parsed document containing no article
element, no main element and no content-identified container (neither a div
with id content nor a div with class content), classified unknown, the
Content Extractor returns the empty string and the assembled result has
success false with the error string
"Extracted content too short (0 chars)". -/
theorem c9_no_container (soup : N) (url html : String)
    (h1 : findElem isArticleP soup = none) (h2 : findElem isMainP soup = none)
    (h3 : findElem isDivIdContentP soup = none) (h4 : findElem isDivClsContentP soup = none)
    (h5 : identify_source url = Except.ok SourceId.unknown) :
    extract_generic soup = ("", soup) ∧
    ∃ r, crawl_article url (NetOutcome.ok html) (fun _ => Except.ok soup) = Except.ok r ∧
      r.success = false ∧ r.content = "" ∧
      r.error = some "Extracted content too short (0 chars)" := by
  have hemp := extract_generic_empty soup h1 h2 h3 h4
  have hcont : (extractBySource SourceId.unknown soup).1 = "" := by
    show (extract_generic soup).1 = ""
    rw [hemp]
  have hcond : ¬((extractBySource SourceId.unknown soup).1 ≠ "" ∧
      100 < (extractBySource SourceId.unknown soup).1.length) :=
    fun hc => hc.1 hcont
  refine ⟨hemp, crawlParsed url SourceId.unknown soup,
    crawl_article_parsed url html soup _ SourceId.unknown h5 rfl, ?_, ?_, ?_⟩
  · unfold crawlParsed
    rw [if_neg hcond]
  · unfold crawlParsed
    rw [if_neg hcond]
    exact hcont
  · unfold crawlParsed
    rw [if_neg hcond]
    show some ("Extracted content too short ("
        ++ natToStr (extractBySource SourceId.unknown soup).1.length ++ " chars)")
      = some "Extracted content too short (0 chars)"
    rw [hcont]
    decide

/-- C9 witness: the amended theorem applied at a concrete bare document and
URL. -/
theorem c9_no_container_witness :
    extract_generic soupBare = ("", soupBare) ∧
    ∃ r, crawl_article "http://example.org/" (NetOutcome.ok "h")
        (fun _ => Except.ok soupBare) = Except.ok r ∧
      r.success = false ∧ r.content = "" ∧
      r.error = some "Extracted content too short (0 chars)" :=
  c9_no_container soupBare "http://example.org/" "h" rfl rfl rfl rfl rfl

/-! ## Claim C3: short candidates always reach the fallback -/

/-- C3: when every text a specific-selector candidate computed is shorter
than 200 characters (vacuously so when no candidate matched), the content
reaching the fallback check is empty or shorter than 200, the fallback is
therefore consulted, and extract_southcn returns the fallback's result:
the loop's last computed text unchanged when no fallback container exists
(even when that text is short or empty), or the re-extracted text of the
main container when one exists. -/
theorem c3_fallback_invoked (soup : N)
    (h : ∀ t ∈ (selLoop badTags southcnSelectors soup "").yields, t.length < 200) :
    ((selLoop badTags southcnSelectors soup "").content = "" ∨
      (selLoop badTags southcnSelectors soup "").content.length < 200) ∧
    (orFind3 isMainP isArticleP isDivIdContentP
        (selLoop badTags southcnSelectors soup "").soup = none →
      extract_southcn soup = ((selLoop badTags southcnSelectors soup "").content,
        (selLoop badTags southcnSelectors soup "").soup)) ∧
    (∀ tg ats ch, findElem isMainP (selLoop badTags southcnSelectors soup "").soup
        = some (tg, ats, ch) →
      ∃ s2, extract_southcn soup = (getText "\n" (stripF badTagsAll ch), s2)) := by
  have hcond : (selLoop badTags southcnSelectors soup "").content = "" ∨
      (selLoop badTags southcnSelectors soup "").content.length < 200 := by
    rcases selLoop_content_mem badTags southcnSelectors soup "" with h0 | hmem
    · exact Or.inl h0
    · exact Or.inr (h _ hmem)
  refine ⟨hcond, ?_, ?_⟩
  · intro horf
    unfold extract_southcn fallbackKnown
    rw [if_pos hcond, horf]
    rfl
  · intro tg ats ch hfind
    obtain ⟨l2, hsel⟩ := findElem_some_selStrip isMainP badTagsAll
      (selLoop badTags southcnSelectors soup "").soup tg ats ch hfind
    refine ⟨l2, ?_⟩
    unfold extract_southcn fallbackKnown orFind3
    rw [if_pos hcond, hfind]
    show applyFallback _ _ (some isMainP) = _
    simp only [applyFallback]
    rw [hsel]

/-- C3 witness: on a document whose only candidate yields the 5-character
text short, with no fallback container, the returned text is that short
text. -/
theorem c3_fallback_invoked_witness :
    (∀ t ∈ (selLoop badTags southcnSelectors soupShort "").yields, t.length < 200) ∧
    extract_southcn soupShort = ("short", soupShort) :=
  ⟨by decide, by
    have h := (c3_fallback_invoked soupShort (by decide)).2.1 rfl
    exact h⟩

/-! ## Claim C2: the acceptance threshold of the specific-selector loop -/

/-- C2 counterexample: the claim accepts a candidate at 200 characters or
more. In soupEx200 the article selector yields exactly 200 characters, yet
the loop keeps scanning, a later selector overwrites the content, the
fallback runs, and the extractor returns the main container's text
MAINTEXT instead of the 200-character candidate text. -/
theorem c2_counterexample :
    repChar 200 'a' ∈ (selLoop badTags southcnSelectors soupEx200 "").yields ∧
    200 ≤ (repChar 200 'a').length ∧
    (extract_southcn soupEx200).1 = "MAINTEXT" ∧
    (extract_southcn soupEx200).1 ≠ repChar 200 'a' := by
  refine ⟨by decide, by decide, by decide, by decide⟩

/-- C2 (amended): when a specific-selector candidate yields text strictly
longer than 200 characters, the loop stops there with exactly that text,
and the generic fallback is not consulted: the extractor returns that text
with the loop's document unchanged by any fallback step. -/
theorem c2_break_over_200 (soup : N) (t : String)
    (hmem : t ∈ (selLoop badTags southcnSelectors soup "").yields)
    (hlen : 200 < t.length) :
    extract_southcn soup = (t, (selLoop badTags southcnSelectors soup "").soup) := by
  have hcontent := selLoop_break badTags southcnSelectors soup "" t hmem hlen
  unfold extract_southcn
  rw [hcontent]
  unfold fallbackKnown
  rw [if_neg]
  rintro (rfl | hlt)
  · simp at hlen
  · omega

/-- C2 amended witness: a single article candidate with 250 characters is
accepted and returned as-is. -/
theorem c2_break_over_200_witness :
    200 < (repChar 250 'a').length ∧
    extract_southcn soupCleanLong
      = (repChar 250 'a', (selLoop badTags southcnSelectors soupCleanLong "").soup) :=
  ⟨by decide, c2_break_over_200 soupCleanLong (repChar 250 'a') (by decide) (by decide)⟩

/-! ## Claim C6: idempotence of extraction -/

/-- C6 counterexample: extraction decomposes elements of the live document,
so running extract_southcn a second time on the same (now mutated) document
returns different text: the first run returns the 220-character text after
decomposing a footer, the second run then finds the later 250-character
div of class article-content that the first run skipped. -/
theorem c6_counterexample :
    (extract_southcn soupMut).1 = repChar 220 'y' ∧
    (extract_southcn (extract_southcn soupMut).2).1 = repChar 250 'z' ∧
    (extract_southcn (extract_southcn soupMut).2).1 ≠ (extract_southcn soupMut).1 := by
  refine ⟨by decide, by decide, by decide⟩

/-- C6 (amended): re-running content extraction on the same document yields
identical output text whenever the document contains none of the
decomposable tags (script, style, nav, footer, header, aside), for every
source identifier; in general a second run on the same document object may
differ, because extraction strips those elements from the document in
place. -/
theorem c6_idempotent_when_clean (src : SourceId) (soup : N)
    (h : cleanF badTagsAll soup = true) :
    (extractBySource src (extractBySource src soup).2).1
      = (extractBySource src soup).1 := by
  rw [extractBySource_clean src soup h]

/-- C6 amended witness: a clean 150-character article under the southcn
extractor. -/
theorem c6_idempotent_witness :
    cleanF badTagsAll soupCleanArt = true ∧
    (extractBySource SourceId.southcn
        (extractBySource SourceId.southcn soupCleanArt).2).1
      = (extractBySource SourceId.southcn soupCleanArt).1 :=
  ⟨by decide, c6_idempotent_when_clean SourceId.southcn soupCleanArt (by decide)⟩

/-! ## Claim C7: stripping mutates the document in place -/

/-- C7 counterexample: the code decomposes script elements inside the live
matched subtree rather than a copy: after extract_generic returns, the
document has lost its script element, so the parsed document passed in is
not unchanged. -/
theorem c7_counterexample :
    extract_generic soupScript = ("hello", N.elem "article" [] (N.text "hello" N.nil) N.nil) ∧
    (extract_generic soupScript).2 ≠ soupScript ∧
    countTag "script" soupScript = 1 ∧
    countTag "script" (extract_generic soupScript).2 = 0 := by
  refine ⟨by decide, by decide, by decide, by decide⟩

/-- C7 (amended): the Content Extractor strips script, style, nav, footer
and header elements (and, in the fallback paths, aside) from the matched
subtree in place, mutating the parsed document; the document is unchanged
after extraction exactly in the benign case in which it contains none of
those strippable elements, for every extractor. -/
theorem c7_strip_in_place (soup : N) (h : cleanF badTagsAll soup = true) :
    (extract_southcn soup).2 = soup ∧ (extract_ycwb soup).2 = soup ∧
    (extract_chinanews soup).2 = soup ∧ (extract_generic soup).2 = soup :=
  ⟨extract_southcn_clean soup h, extract_ycwb_clean soup h,
   extract_chinanews_clean soup h, extract_generic_clean soup h⟩

/-- C7 amended witness: a document that is a lone main element is untouched
by all four extractors. -/
theorem c7_strip_in_place_witness :
    cleanF badTagsAll soupMainOnly = true ∧
    (extract_southcn soupMainOnly).2 = soupMainOnly ∧
    (extract_ycwb soupMainOnly).2 = soupMainOnly ∧
    (extract_chinanews soupMainOnly).2 = soupMainOnly ∧
    (extract_generic soupMainOnly).2 = soupMainOnly :=
  ⟨by decide, c7_strip_in_place soupMainOnly (by decide)⟩

/-! ## Claim C8: fallback container order -/

theorem orFind3_first (p1 p2 p3 : Pred) (soup : N)
    (h : (findElem p1 soup).isSome = true) : orFind3 p1 p2 p3 soup = some p1 := by
  unfold orFind3
  rw [if_pos h]

theorem orFind3_second (p1 p2 p3 : Pred) (soup : N)
    (h1 : findElem p1 soup = none) (h2 : (findElem p2 soup).isSome = true) :
    orFind3 p1 p2 p3 soup = some p2 := by
  unfold orFind3
  rw [h1]
  simp only [Option.isSome_none, Bool.false_eq_true, if_false, if_pos h2]

theorem orFind3_third (p1 p2 p3 : Pred) (soup : N)
    (h1 : findElem p1 soup = none) (h2 : findElem p2 soup = none)
    (h3 : (findElem p3 soup).isSome = true) : orFind3 p1 p2 p3 soup = some p3 := by
  unfold orFind3
  rw [h1, h2]
  simp only [Option.isSome_none, Bool.false_eq_true, if_false, if_pos h3]

theorem applyFallback_reads (soup : N) (c : String) (p : Pred) (tg : String)
    (ats : List (String × String)) (ch : N)
    (hfind : findElem p soup = some (tg, ats, ch)) :
    ∃ s2, applyFallback soup c (some p) = (getText "\n" (stripF badTagsAll ch), s2) := by
  obtain ⟨l2, hsel⟩ := findElem_some_selStrip p badTagsAll soup tg ats ch hfind
  refine ⟨l2, ?_⟩
  simp only [applyFallback]
  rw [hsel]

/-- C8 counterexample: in the path used for unknown sources, an article
element is examined before any main element: on a document holding a
210-character article next to a main, extract_generic returns the article
text although a main container is present, contradicting the claimed
main-first order. -/
theorem c8_counterexample :
    findElem isMainP soupArtMain = some ("main", [], N.text "MMM" N.nil) ∧
    getText "\n" (stripF badTagsAll (N.text "MMM" N.nil)) = "MMM" ∧
    (extract_generic soupArtMain).1 = repChar 210 'a' ∧
    (extract_generic soupArtMain).1 ≠ "MMM" := by
  refine ⟨by decide, by decide, by decide, by decide⟩

/-- C8 (amended): in the fallback tier of the known-source extractors the
content-region search is main first, then article, then the div with id
content, first present winning; in the unknown-source path, an article
element is examined first as its own tier (its text is returned outright
when longer than 200 characters), and the fallback tier there searches
main first, then the div with id content, then the div with class content,
first present winning. -/
theorem c8_container_order :
    (∀ soup c tg ats ch, (c = "" ∨ c.length < 200) →
      findElem isMainP soup = some (tg, ats, ch) →
      ∃ s2, fallbackKnown soup c = (getText "\n" (stripF badTagsAll ch), s2)) ∧
    (∀ soup c tg ats ch, (c = "" ∨ c.length < 200) →
      findElem isMainP soup = none →
      findElem isArticleP soup = some (tg, ats, ch) →
      ∃ s2, fallbackKnown soup c = (getText "\n" (stripF badTagsAll ch), s2)) ∧
    (∀ soup c tg ats ch, (c = "" ∨ c.length < 200) →
      findElem isMainP soup = none → findElem isArticleP soup = none →
      findElem isDivIdContentP soup = some (tg, ats, ch) →
      ∃ s2, fallbackKnown soup c = (getText "\n" (stripF badTagsAll ch), s2)) ∧
    (∀ soup tg ats ch, findElem isArticleP soup = some (tg, ats, ch) →
      200 < (getText "\n" (stripF badTagsAll ch)).length →
      ∃ s2, extract_generic soup = (getText "\n" (stripF badTagsAll ch), s2)) ∧
    (∀ soup c tg ats ch, (c = "" ∨ c.length < 200) →
      findElem isMainP soup = some (tg, ats, ch) →
      ∃ s2, genericFallback soup c = (getText "\n" (stripF badTagsAll ch), s2)) ∧
    (∀ soup c tg ats ch, (c = "" ∨ c.length < 200) →
      findElem isMainP soup = none →
      findElem isDivIdContentP soup = some (tg, ats, ch) →
      ∃ s2, genericFallback soup c = (getText "\n" (stripF badTagsAll ch), s2)) ∧
    (∀ soup c tg ats ch, (c = "" ∨ c.length < 200) →
      findElem isMainP soup = none → findElem isDivIdContentP soup = none →
      findElem isDivClsContentP soup = some (tg, ats, ch) →
      ∃ s2, genericFallback soup c = (getText "\n" (stripF badTagsAll ch), s2)) := by
  refine ⟨?_, ?_, ?_, ?_, ?_, ?_, ?_⟩
  · intro soup c tg ats ch hc hfind
    unfold fallbackKnown
    rw [if_pos hc, orFind3_first _ _ _ _ (by rw [hfind]; rfl)]
    exact applyFallback_reads soup c isMainP tg ats ch hfind
  · intro soup c tg ats ch hc hnone hfind
    unfold fallbackKnown
    rw [if_pos hc, orFind3_second _ _ _ _ hnone (by rw [hfind]; rfl)]
    exact applyFallback_reads soup c isArticleP tg ats ch hfind
  · intro soup c tg ats ch hc hn1 hn2 hfind
    unfold fallbackKnown
    rw [if_pos hc, orFind3_third _ _ _ _ hn1 hn2 (by rw [hfind]; rfl)]
    exact applyFallback_reads soup c isDivIdContentP tg ats ch hfind
  · intro soup tg ats ch hfind hlen
    obtain ⟨l2, hsel⟩ := findElem_some_selStrip isArticleP badTagsAll soup tg ats ch hfind
    refine ⟨l2, ?_⟩
    unfold extract_generic
    rw [hsel]
    show genericFallback l2 (getText "\n" (stripF badTagsAll ch)) = _
    unfold genericFallback
    rw [if_neg]
    rintro (he | hlt)
    · rw [he] at hlen
      simp at hlen
    · omega
  · intro soup c tg ats ch hc hfind
    unfold genericFallback
    rw [if_pos hc, orFind3_first _ _ _ _ (by rw [hfind]; rfl)]
    exact applyFallback_reads soup c isMainP tg ats ch hfind
  · intro soup c tg ats ch hc hnone hfind
    unfold genericFallback
    rw [if_pos hc, orFind3_second _ _ _ _ hnone (by rw [hfind]; rfl)]
    exact applyFallback_reads soup c isDivIdContentP tg ats ch hfind
  · intro soup c tg ats ch hc hn1 hn2 hfind
    unfold genericFallback
    rw [if_pos hc, orFind3_third _ _ _ _ hn1 hn2 (by rw [hfind]; rfl)]
    exact applyFallback_reads soup c isDivClsContentP tg ats ch hfind

/-- C8 witness: the known-source fallback on a lone main element with empty
prior content returns the text of the main container. -/
theorem c8_container_order_witness :
    ∃ s2, fallbackKnown soupMainOnly "" = ("mm", s2) :=
  c8_container_order.1 soupMainOnly "" "main" [] (N.text "mm" N.nil) (Or.inl rfl) rfl
